import Mathlib

/-!
Shallow embedding of the convergence engine of the per-node Worker agent
(`dm/worker/worker.go`) and proofs about its stage-translation, lifecycle
and config-projection behaviour.

Pure functions of the Go source are translated into Lean functions; the
stateful Worker is modelled as an explicit record threaded through each
operation. Collaborators that live outside the provided source file
(the pb enums, the etcd `ha` helpers, the SubTask state machine, the
binlog helpers and the external binlog-filter library) are modelled from
the specification, each marked as such in its doc comment.
-/

set_option maxHeartbeats 1000000

namespace DMWorker

/-- Modelled from the spec: the `pb.Stage` enum — one of New, Running,
Paused, Stopped, Finished, with `invalidStage` as the zero value of the
protobuf enum. -/
inductive Stage
  | invalidStage
  | new
  | running
  | paused
  | stopped
  | finished
  deriving DecidableEq, Repr

/-- Modelled from the spec: `pb.Stage.String()`, used by `ForbidPurge` to
render the stage inside its reason message. -/
def stageString : Stage → String
  | .invalidStage => "InvalidStage"
  | .new => "New"
  | .running => "Running"
  | .paused => "Paused"
  | .stopped => "Stopped"
  | .finished => "Finished"

/-- Modelled from the spec: the `pb.TaskOp` enum used by `OperateSubTask`;
`invalidOp` is the zero value a `var op pb.TaskOp` declaration produces. -/
inductive TaskOp
  | invalidOp
  | stop
  | pause
  | resume
  | autoResume
  deriving DecidableEq, Repr

/-- Modelled from the spec: `pb.TaskOp.String()`, returned by
`operateSubTaskStage` for the metrics label. -/
def TaskOp.str : TaskOp → String
  | .invalidOp => "InvalidOp"
  | .stop => "Stop"
  | .pause => "Pause"
  | .resume => "Resume"
  | .autoResume => "AutoResume"

/-- Modelled from the spec: a binlog event filter rule of the external
binlog-filter library. `key` stands for the (schema-pattern, table-pattern)
identity under which the library detects duplicate rules, `valid` for
whether the rule compiles. -/
structure FilterRule where
  key : String
  valid : Bool
  deriving DecidableEq, Repr

/-- Errors of the external binlog-filter library: a rule that does not
compile, or adding a rule whose identity is already present. -/
inductive FilterErr
  | invalidRule
  | alreadyExists
  deriving DecidableEq, Repr

/-- Modelled from the spec: rule identity normalisation of the external
filter library — case-insensitive filters compare keys lowercased. -/
def normKey (caseSensitive : Bool) (k : String) : String :=
  if caseSensitive then k else k.toLower

/-- Modelled from the spec: `filter.AddRule` — fails with `alreadyExists`
when a rule of the same identity is present, with `invalidRule` when the
rule does not compile, and otherwise records the rule's identity. -/
def addRule (caseSensitive : Bool) (keys : List String) (r : FilterRule) :
    Except FilterErr (List String) :=
  if (normKey caseSensitive r.key) ∈ keys then .error .alreadyExists
  else if r.valid then .ok (keys ++ [normKey caseSensitive r.key])
  else .error .invalidRule

/-- Modelled from the spec: building a compiled filter by adding each rule
in turn, starting from the identities `keys`. -/
def buildFilter (caseSensitive : Bool) (keys : List String) :
    List FilterRule → Except FilterErr (List String)
  | [] => .ok keys
  | r :: rest =>
    match addRule caseSensitive keys r with
    | .error e => .error e
    | .ok keys2 => buildFilter caseSensitive keys2 rest

/-- Modelled from the spec: `bf.NewBinlogEvent(caseSensitive, rules)` of the
external binlog-filter library — compiles a fresh filter from the rules. -/
def newBinlogEvent (caseSensitive : Bool) (rules : List FilterRule) :
    Except FilterErr (List String) :=
  buildFilter caseSensitive [] rules

/-- Identities of a rule list, as a successfully built filter records them. -/
def normKeys (caseSensitive : Bool) (rules : List FilterRule) : List String :=
  rules.map (fun r => normKey caseSensitive r.key)

/-- Per-subtask configuration (`config.SubTaskConfig`), restricted to the
fields `copyConfigFromSource` and `StartSubTask` touch. `decryptOk` models
whether `cfg.DecryptPassword()` succeeds (password handling is out of
scope of the core). -/
structure SubTaskConfig where
  Name : String
  SourceID : String
  From : String
  Flavor : String
  ServerID : Nat
  RelayDir : String
  EnableGTID : Bool
  UseRelay : Bool
  AutoFixGTID : Bool
  CaseSensitive : Bool
  FilterRules : List FilterRule
  decryptOk : Bool
  deriving DecidableEq, Repr

/-- The zero value of `config.SubTaskConfig`, as produced by
`var subTaskCfg config.SubTaskConfig` in `operateSubTaskStageWithoutConfig`. -/
def zeroSubTaskConfig : SubTaskConfig :=
  { Name := "", SourceID := "", From := "", Flavor := "", ServerID := 0,
    RelayDir := "", EnableGTID := false, UseRelay := false,
    AutoFixGTID := false, CaseSensitive := false, FilterRules := [],
    decryptOk := true }

/-- Source configuration (`config.SourceConfig`), restricted to the fields
the Worker reads and writes. `checkEnable` is `cfg.Checker.CheckEnable`. -/
structure SourceConfig where
  SourceID : String
  From : String
  Flavor : String
  ServerID : Nat
  RelayDir : String
  EnableGTID : Bool
  EnableRelay : Bool
  AutoFixGTID : Bool
  CaseSensitive : Bool
  Filters : List FilterRule
  checkEnable : Bool
  RelayBinLogName : String
  RelayBinlogGTID : String
  UUIDSuffix : Nat
  deriving DecidableEq, Repr

/-- The field copies at the head of `copyConfigFromSource`
(`worker.go:727-742`): plain overwrites from the source config, plus the
case-sensitivity disjunction. -/
def projectSource (cfg : SubTaskConfig) (sourceCfg : SourceConfig) : SubTaskConfig :=
  { cfg with
    From := sourceCfg.From
    Flavor := sourceCfg.Flavor
    ServerID := sourceCfg.ServerID
    RelayDir := sourceCfg.RelayDir
    EnableGTID := sourceCfg.EnableGTID
    UseRelay := sourceCfg.EnableRelay
    AutoFixGTID := sourceCfg.AutoFixGTID
    CaseSensitive := cfg.CaseSensitive || sourceCfg.CaseSensitive }

/-- The loop of `copyConfigFromSource` (`worker.go:748-758`): for each
source filter rule, try `AddRule`; on `alreadyExists` keep the task-level
rule and continue, on another error abort, on success append the rule to
the subtask's rule list. -/
def copyFilters (caseSensitive : Bool) (keys : List String)
    (acc : List FilterRule) : List FilterRule → Except FilterErr (List FilterRule)
  | [] => .ok acc
  | r :: rest =>
    match addRule caseSensitive keys r with
    | .error .alreadyExists => copyFilters caseSensitive keys acc rest
    | .error e => .error e
    | .ok keys2 => copyFilters caseSensitive keys2 (acc ++ [r]) rest

/-- Translation of `copyConfigFromSource` (`worker.go:726-760`): copy the
connection and relay fields from the source config, take the disjunction
of the case-sensitivity flags, compile the task's own filter rules, then
merge the source's filter rules with task-level rules taking priority. -/
def copyConfigFromSource (cfg : SubTaskConfig) (sourceCfg : SourceConfig) :
    Except FilterErr SubTaskConfig :=
  let cfgA := projectSource cfg sourceCfg
  match newBinlogEvent cfgA.CaseSensitive cfgA.FilterRules with
  | .error e => .error e
  | .ok keys =>
    match copyFilters cfgA.CaseSensitive keys cfgA.FilterRules sourceCfg.Filters with
    | .error e => .error e
    | .ok rules2 => .ok { cfgA with FilterRules := rules2 }

/-- Worker-level errors (`pkg/terror` codes the Worker produces, plus the
pass-through families the claims mention). -/
inductive WErr
  | alreadyClosed
  | subTaskNotFound (name : String)
  | configMissing (task : String)
  | filterFail (e : FilterErr)
  | invalidOperate (op : TaskOp) (name : String)
  | notRunningStage (name : String)
  | notPausedStage (name : String)
  | notPausedForUpdate (name : String)
  | decryptFailed
  | relayPurging (name : String)
  | runBadExpectStage (name : String)
  deriving DecidableEq, Repr

/-- Modelled from the spec: the `pb.ProcessResult` a SubTask's `fail`
transition attaches — a non-canceled failure record carrying the error. -/
structure ProcessResult where
  isCanceled : Bool
  err : WErr
  deriving DecidableEq, Repr

/-- Modelled from the spec: a SubTask — its effective config, its current
stage and its last result. The pipeline it owns is out of scope. -/
structure SubTask where
  cfg : SubTaskConfig
  stage : Stage
  result : Option ProcessResult
  deriving DecidableEq, Repr

/-- Modelled from the spec: `NewSubTask` — a fresh SubTask starts in the
implicit initial stage `New` with no result. -/
def NewSubTask (cfg : SubTaskConfig) : SubTask :=
  { cfg := cfg, stage := .new, result := none }

/-- Modelled from the spec: `st.fail(err)` — records a result with
`isCanceled = false` and drives the task to `Paused` so the checker may
later auto-resume it. -/
def SubTask.fail (st : SubTask) (e : WErr) : SubTask :=
  { st with stage := .paused, result := some { isCanceled := false, err := e } }

/-- Modelled from the spec: `st.Run(expect)` — drives a fresh SubTask to
`expect ∈ {Running, Paused}`; any other expected stage is a configuration
error and the stage is left as it is. -/
def SubTask.runWith (st : SubTask) (expect : Stage) : SubTask :=
  if expect = .running ∨ expect = .paused then { st with stage := expect } else st

/-- The Worker state (`Worker` struct of `worker.go`), restricted to the
fields the claims are about. The relay holder, purger and checker are
collaborators whose own state is out of scope; presence/closed/purging
booleans model what the Worker reads and writes of them. `ctxCanceled`
models the root-context cancellation `Close` performs. -/
structure Worker where
  closed : Bool
  ctxCanceled : Bool
  cfg : SourceConfig
  subTasks : List SubTask
  relayHolderPresent : Bool
  relayClosed : Bool
  relayPurgerPresent : Bool
  relayPurging : Bool
  purgerClosed : Bool
  checkerClosed : Bool
  deriving DecidableEq, Repr

/-- Modelled from the spec: `subTaskHolder.findSubTask` — look the task up
by name in the holder. -/
def findSubTask (w : Worker) (name : String) : Option SubTask :=
  w.subTasks.find? (fun st => st.cfg.Name = name)

/-- Modelled from the spec: `subTaskHolder.recordSubTask` — map semantics,
the record under the same name (if any) is replaced. -/
def recordSubTask (w : Worker) (st : SubTask) : Worker :=
  { w with subTasks := w.subTasks.filter (fun t => t.cfg.Name ≠ st.cfg.Name) ++ [st] }

/-- Modelled from the spec: `subTaskHolder.removeSubTask`. -/
def removeSubTask (w : Worker) (name : String) : Worker :=
  { w with subTasks := w.subTasks.filter (fun t => t.cfg.Name ≠ name) }

/-- Update the subtask recorded under `name` in place. -/
def updateSubTaskIn (w : Worker) (name : String) (f : SubTask → SubTask) : Worker :=
  { w with subTasks := w.subTasks.map (fun t => if t.cfg.Name = name then f t else t) }

/-- Modelled from the spec: `cfg.DecryptPassword()` — password decryption
is out of scope, so success is a flag of the config; on success the config
is returned unchanged. -/
def SubTaskConfig.decryptPassword (cfg : SubTaskConfig) : Except WErr SubTaskConfig :=
  if cfg.decryptOk then .ok cfg else .error .decryptFailed

/-- Translation of `StartSubTask` (`worker.go:289-325`): project the config
from the source config (returning that error to the caller), record the
fresh SubTask in the holder, then — already closed, decryption failure,
relay purging — mark the recorded SubTask failed and return success, and
otherwise run it toward the expected stage. -/
def StartSubTask (w : Worker) (cfg : SubTaskConfig) (expectStage : Stage) :
    Worker × Except WErr Unit :=
  match copyConfigFromSource cfg w.cfg with
  | .error e => (w, .error (.filterFail e))
  | .ok cfg1 =>
    let w1 := recordSubTask w (NewSubTask cfg1)
    if w1.closed then
      (updateSubTaskIn w1 cfg1.Name (fun st => st.fail .alreadyClosed), .ok ())
    else
      match cfg1.decryptPassword with
      | .error _ => (updateSubTaskIn w1 cfg1.Name (fun st => st.fail .decryptFailed), .ok ())
      | .ok cfg2 =>
        let w2 := updateSubTaskIn w1 cfg1.Name (fun st => { st with cfg := cfg2 })
        if w2.relayPurgerPresent && w2.relayPurging then
          (updateSubTaskIn w2 cfg1.Name (fun st => st.fail (.relayPurging cfg1.Name)), .ok ())
        else
          (updateSubTaskIn w2 cfg1.Name (fun st => st.runWith expectStage), .ok ())

/-- Translation of `UpdateSubTask` (`worker.go:327-343`): reject when the
Worker is closed or the task is absent, otherwise pass through to
`st.Update` (modelled from the spec: legal only in `Paused`, replaces the
effective config atomically). -/
def UpdateSubTask (w : Worker) (cfg : SubTaskConfig) : Worker × Except WErr Unit :=
  if w.closed then (w, .error .alreadyClosed)
  else
    match findSubTask w cfg.Name with
    | none => (w, .error (.subTaskNotFound cfg.Name))
    | some st =>
      if st.stage = .paused then
        (updateSubTaskIn w cfg.Name (fun t => { t with cfg := cfg }), .ok ())
      else (w, .error (.notPausedForUpdate cfg.Name))

/-- Translation of `OperateSubTask` (`worker.go:345-379`): reject when
closed or absent; `Stop` closes the task and removes it from the holder,
`Pause` is legal from `Running`, `Resume`/`AutoResume` from `Paused`
(SubTask transitions modelled from the spec), and any other op yields the
invalid-operate error. -/
def OperateSubTask (w : Worker) (name : String) (op : TaskOp) :
    Worker × Except WErr Unit :=
  if w.closed then (w, .error .alreadyClosed)
  else
    match findSubTask w name with
    | none => (w, .error (.subTaskNotFound name))
    | some st =>
      match op with
      | .stop => (removeSubTask (updateSubTaskIn w name (fun t => { t with stage := .stopped })) name, .ok ())
      | .pause =>
        if st.stage = .running then
          (updateSubTaskIn w name (fun t => { t with stage := .paused }), .ok ())
        else (w, .error (.notRunningStage name))
      | .resume =>
        if st.stage = .paused then
          (updateSubTaskIn w name (fun t => { t with stage := .running }), .ok ())
        else (w, .error (.notPausedStage name))
      | .autoResume =>
        if st.stage = .paused then
          (updateSubTaskIn w name (fun t => { t with stage := .running }), .ok ())
        else (w, .error (.notPausedStage name))
      | .invalidOp => (w, .error (.invalidOperate op name))

/-- Translation of `OperateSchema` (`worker.go:709-724`): reject when the
Worker is closed or the task is absent, otherwise pass through to the
pipeline (modelled from the spec: an opaque pass-through that does not
change the Worker). -/
def OperateSchema (w : Worker) (task : String) : Worker × Except WErr String :=
  if w.closed then (w, .error .alreadyClosed)
  else
    match findSubTask w task with
    | none => (w, .error (.subTaskNotFound task))
    | some _ => (w, .ok "")

/-- Translation of `HandleError` (`worker.go:790-805`): reject when the
Worker is closed or the task is absent, otherwise pass through to the
pipeline (modelled from the spec: an opaque pass-through that does not
change the Worker). -/
def HandleError (w : Worker) (task : String) : Worker × Except WErr Unit :=
  if w.closed then (w, .error .alreadyClosed)
  else
    match findSubTask w task with
    | none => (w, .error (.subTaskNotFound task))
    | some _ => (w, .ok ())

/-- Translation of `Close` (`worker.go:137-171`): a no-op on an already
closed Worker; otherwise cancel the root context, wait for the background
loops (the wait has no state content here), close every subtask, the relay
holder and purger when present, the checker when enabled, and finally set
`closed`. -/
def Worker.Close (w : Worker) : Worker :=
  if w.closed then w
  else
    { w with
      ctxCanceled := true
      subTasks := w.subTasks.map (fun st => { st with stage := .stopped })
      relayClosed := w.relayHolderPresent || w.relayClosed
      purgerClosed := w.relayPurgerPresent || w.purgerClosed
      checkerClosed := w.cfg.checkEnable || w.checkerClosed
      closed := true }

/-- Translation of `ForbidPurge` (`worker.go:691-707`): `(false, "")` on a
closed Worker, otherwise `(true, reason)` for the first subtask found in
stage `New` or `Paused`, `(false, "")` when there is none. -/
def ForbidPurge (w : Worker) : Bool × String :=
  if w.closed then (false, "")
  else
    match w.subTasks.find? (fun st => st.stage = .new ∨ st.stage = .paused) with
    | some st =>
      (true, "sub task " ++ st.cfg.Name ++ " current stage is " ++ stageString st.stage)
    | none => (false, "")

/-- Modelled from the spec: the ExpectedStageRecord (`ha.Stage`) read and
watched by a stage follower — source, task (empty for relay), expected
stage, deletion tombstone, and store revision. -/
structure StageRecord where
  source : String
  task : String
  expect : Stage
  isDeleted : Bool
  revision : Nat
  deriving DecidableEq, Repr

/-- Modelled from the spec: the metrics label `opErrTypeBeforeOp` returned
on branches that act before any `TaskOp` is chosen; its exact value is a
metrics concern. -/
def opErrTypeBeforeOp : String := "BeforeAnyOp"

/-- Translation of `operateSubTaskStage` (`worker.go:516-536`): when the
expected stage is `Running` or `Paused`, create the subtask through
`StartSubTask` if it is absent, otherwise choose `Resume`/`Pause`; when the
record is a deletion tombstone choose `Stop`; otherwise the zero-valued
`TaskOp` falls through to `OperateSubTask`. Returns the mutated Worker, the
metrics label, and the operation's outcome. -/
def operateSubTaskStage (w : Worker) (stage : StageRecord) (subTaskCfg : SubTaskConfig) :
    Worker × String × Except WErr Unit :=
  if stage.expect = .running ∨ stage.expect = .paused then
    match findSubTask w stage.task with
    | none =>
      let r := StartSubTask w subTaskCfg stage.expect
      (r.1, opErrTypeBeforeOp, r.2)
    | some _ =>
      let op : TaskOp := if stage.expect = .running then .resume else .pause
      let r := OperateSubTask w stage.task op
      (r.1, op.str, r.2)
  else if stage.isDeleted then
    let r := OperateSubTask w stage.task .stop
    (r.1, TaskOp.stop.str, r.2)
  else
    let r := OperateSubTask w stage.task .invalidOp
    (r.1, TaskOp.invalidOp.str, r.2)

/-- Translation of `operateSubTaskStageWithoutConfig` (`worker.go:538-555`):
only when the expected stage is `Running` and the subtask is absent is the
config fetched from the store at the record's revision (the store is
modelled as a map from task name and revision to an optional config;
transport failures of the store client are out of scope); a missing config
yields the config-missing error; every other path reaches
`operateSubTaskStage` with the zero-valued config. -/
def operateSubTaskStageWithoutConfig (w : Worker)
    (store : String → Nat → Option SubTaskConfig) (stage : StageRecord) :
    Worker × String × Except WErr Unit :=
  if stage.expect = .running then
    match findSubTask w stage.task with
    | none =>
      match store stage.task stage.revision with
      | none => (w, opErrTypeBeforeOp, .error (.configMissing stage.task))
      | some c => operateSubTaskStage w stage c
    | some _ => operateSubTaskStage w stage zeroSubTaskConfig
  else operateSubTaskStage w stage zeroSubTaskConfig

/-- Action vocabulary used to state the claim-side translation rule. -/
inductive SubTaskAction
  | create (expect : Stage)
  | resume
  | pause
  | stop
  | invalidOp
  | noAction
  deriving DecidableEq, Repr

/-- Stated from the claim's words (C1 / spec §4.7), for comparison against
the source's `operateSubTaskStage`: create only when the subject is absent,
the expected stage is `Running` or `Paused` and the record is not deleted;
else Resume on `Running`, Pause on `Paused`, Stop on a deletion tombstone;
and no other action for any record. -/
def claimedSubTaskStageAction (present : Bool) (s : StageRecord) : SubTaskAction :=
  if ¬present ∧ (s.expect = .running ∨ s.expect = .paused) ∧ s.isDeleted = false then
    .create s.expect
  else if s.expect = .running then .resume
  else if s.expect = .paused then .pause
  else if s.isDeleted then .stop
  else .noAction

/-- Modelled from the spec: a binlog file name as the relay names it — a
base name, the relay-UUID suffix ordinal embedded in it, and the file's
sequence number. -/
structure BinlogName where
  base : String
  suffix : Nat
  seq : Nat
  deriving DecidableEq, Repr

/-- Modelled from the spec: a binlog location — position (file name and
offset) plus the GTID set rendered as a string. -/
structure Location where
  name : BinlogName
  pos : Nat
  gtid : String
  deriving DecidableEq, Repr

/-- Modelled from the spec: the strict binlog-location order used to pick
the minimum — by filename ordinal (relay suffix, then file sequence), then
file offset. -/
def locLt (a b : Location) : Prop :=
  a.name.suffix < b.name.suffix ∨
    (a.name.suffix = b.name.suffix ∧
      (a.name.seq < b.name.seq ∨ (a.name.seq = b.name.seq ∧ a.pos < b.pos)))

instance (a b : Location) : Decidable (locLt a b) := by
  unfold locLt; infer_instance

/-- Modelled from the spec: `getMinLocInAllSubTasks` — the pointwise
minimum binlog location across the subtasks' persisted checkpoints, or
none when no checkpoint exists. -/
def getMinLocInAllSubTasks : List Location → Option Location
  | [] => none
  | x :: xs => some (xs.foldl (fun acc y => if locLt y acc then y else acc) x)

/-- Modelled from the spec: `binlog.AdjustPosition(pos).Name` — the binlog
file name with the relay-UUID suffix stripped. -/
def adjustPositionName (n : BinlogName) : String :=
  n.base ++ "." ++ Nat.repr n.seq

/-- Modelled from the spec: `binlog.ExtractSuffix` — the relay-UUID suffix
ordinal embedded in a binlog file name. -/
def extractSuffix (n : BinlogName) : Nat :=
  n.suffix

/-- Modelled from the spec: `binlog.MinUUIDSuffix`, the sentinel minimal
relay-UUID suffix used when no checkpoint exists. -/
def MinUUIDSuffix : Nat := 1

/-- Translation of steps (i)-(iii) of `EnableRelay` (`worker.go:174-201`):
compute the minimum binlog location over the subtasks' checkpoints; when
one exists set the relay start file, the relay GTID set and the UUID
suffix from it, otherwise set the sentinel `MinUUIDSuffix`. The etcd
fetches and the relay-holder construction of steps (iv)-(vi) are
collaborator I/O with no config content. -/
def enableRelayAdjustConfig (cfg : SourceConfig) (checkpoints : List Location) :
    SourceConfig :=
  match getMinLocInAllSubTasks checkpoints with
  | some minLoc =>
    { cfg with
      RelayBinLogName := adjustPositionName minLoc.name
      RelayBinlogGTID := minLoc.gtid
      UUIDSuffix := extractSuffix minLoc.name }
  | none => { cfg with UUIDSuffix := MinUUIDSuffix }

/-- An empty source configuration, used for concrete instances. -/
def srcCfg0Ex : SourceConfig :=
  { SourceID := "s", From := "", Flavor := "", ServerID := 0, RelayDir := "",
    EnableGTID := false, EnableRelay := false, AutoFixGTID := false,
    CaseSensitive := false, Filters := [], checkEnable := false,
    RelayBinLogName := "", RelayBinlogGTID := "", UUIDSuffix := 0 }

/-- An open Worker with an empty subtask holder. -/
def w0Ex : Worker :=
  { closed := false, ctxCanceled := false, cfg := srcCfg0Ex, subTasks := [],
    relayHolderPresent := false, relayClosed := false,
    relayPurgerPresent := false, relayPurging := false,
    purgerClosed := false, checkerClosed := false }

/-- The same Worker, already closed. -/
def wClosedEx : Worker := { w0Ex with closed := true }

/-- A minimal subtask config named `t`. -/
def c0Ex : SubTaskConfig := { zeroSubTaskConfig with Name := "t" }

/-- An invalid filter rule, used to make config projection fail. -/
def badRuleEx : FilterRule := { key := "k", valid := false }

/-- A subtask config whose own filter rules do not compile. -/
def badCfgEx : SubTaskConfig :=
  { zeroSubTaskConfig with Name := "t", FilterRules := [badRuleEx] }

/-- A record with expected stage Running carrying a deletion tombstone. -/
def s0Ex : StageRecord :=
  { source := "s", task := "t", expect := .running, isDeleted := true, revision := 0 }

/-- A record with expected stage Paused, not deleted. -/
def s1Ex : StageRecord :=
  { source := "s", task := "t", expect := .paused, isDeleted := false, revision := 5 }

/-- A record with expected stage Running, not deleted. -/
def sRunEx : StageRecord :=
  { source := "s", task := "t", expect := .running, isDeleted := false, revision := 5 }

/-- A record with expected stage Stopped, not deleted. -/
def s2Ex : StageRecord :=
  { source := "s", task := "t", expect := .stopped, isDeleted := false, revision := 0 }

/-- A store holding no subtask config at any revision. -/
def emptyStore : String → Nat → Option SubTaskConfig := fun _ _ => none

/-- Subtask `t` in stage Paused. -/
def stPausedEx : SubTask := { cfg := c0Ex, stage := .paused, result := none }

/-- Subtask `t` in stage Running. -/
def stRunningEx : SubTask := { cfg := c0Ex, stage := .running, result := none }

/-- An open Worker holding one paused subtask. -/
def w1Ex : Worker := { w0Ex with subTasks := [stPausedEx] }

/-- An open Worker holding one running subtask. -/
def wRex : Worker := { w0Ex with subTasks := [stRunningEx] }

/-- A valid filter rule with identity `A`. -/
def ruleAEx : FilterRule := { key := "A", valid := true }

/-- A valid filter rule with identity `B`. -/
def ruleBEx : FilterRule := { key := "B", valid := true }

/-- A task config with case sensitivity on and one filter rule of its own. -/
def taskCfgEx : SubTaskConfig :=
  { zeroSubTaskConfig with Name := "t", CaseSensitive := true, FilterRules := [ruleAEx] }

/-- A source config carrying two filter rules, one clashing with the task's. -/
def srcCfgFEx : SourceConfig :=
  { SourceID := "s", From := "f", Flavor := "mysql", ServerID := 1, RelayDir := "d",
    EnableGTID := true, EnableRelay := true, AutoFixGTID := false,
    CaseSensitive := false, Filters := [ruleAEx, ruleBEx], checkEnable := false,
    RelayBinLogName := "", RelayBinlogGTID := "", UUIDSuffix := 0 }

/-- The result of projecting `srcCfgFEx` onto `taskCfgEx` once. -/
def cfg1Ex : SubTaskConfig :=
  { Name := "t", SourceID := "", From := "f", Flavor := "mysql", ServerID := 1,
    RelayDir := "d", EnableGTID := true, UseRelay := true, AutoFixGTID := false,
    CaseSensitive := true, FilterRules := [ruleAEx, ruleBEx], decryptOk := true }

/-- Checkpoint location `mysql-bin|000003.000123`. -/
def l1Ex : Location :=
  { name := { base := "mysql-bin", suffix := 3, seq := 123 }, pos := 4, gtid := "g1" }

/-- Checkpoint location `mysql-bin|000004.000000`. -/
def l2Ex : Location :=
  { name := { base := "mysql-bin", suffix := 4, seq := 0 }, pos := 4, gtid := "g2" }

/-- Checkpoint location `mysql-bin|000003.000050`, the minimum of the three. -/
def l3Ex : Location :=
  { name := { base := "mysql-bin", suffix := 3, seq := 50 }, pos := 4, gtid := "g3" }

deriving instance DecidableEq for Except

/-! Helper lemmas. -/

theorem findSubTask_remove (w : Worker) (name : String) :
    findSubTask (removeSubTask w name) name = none := by
  unfold findSubTask removeSubTask
  rw [List.find?_eq_none]
  intro x hx
  simp only [List.mem_filter] at hx
  have := hx.2
  simp at this
  simp [this]

theorem projectSource_Name (cfg : SubTaskConfig) (s : SourceConfig) :
    (projectSource cfg s).Name = cfg.Name := rfl

theorem projectSource_FilterRules (cfg : SubTaskConfig) (s : SourceConfig) :
    (projectSource cfg s).FilterRules = cfg.FilterRules := rfl

theorem projectSource_CaseSensitive (cfg : SubTaskConfig) (s : SourceConfig) :
    (projectSource cfg s).CaseSensitive = (cfg.CaseSensitive || s.CaseSensitive) := rfl

theorem projectSource_decryptOk (cfg : SubTaskConfig) (s : SourceConfig) :
    (projectSource cfg s).decryptOk = cfg.decryptOk := rfl

theorem findSubTask_record_update (w : Worker) (st0 : SubTask) (f : SubTask → SubTask)
    (hf : (f st0).cfg.Name = st0.cfg.Name) :
    findSubTask (updateSubTaskIn (recordSubTask w st0) st0.cfg.Name f) st0.cfg.Name
      = some (f st0) := by
  unfold findSubTask updateSubTaskIn recordSubTask
  simp only [List.map_append]
  rw [List.find?_append]
  have h1 : ((w.subTasks.filter (fun t => t.cfg.Name ≠ st0.cfg.Name)).map
      (fun t => if t.cfg.Name = st0.cfg.Name then f t else t)).find?
      (fun st => st.cfg.Name = st0.cfg.Name) = none := by
    rw [List.find?_eq_none]
    intro x hx
    simp only [List.mem_map, List.mem_filter] at hx
    obtain ⟨t, ⟨_, hq⟩, rfl⟩ := hx
    simp at hq
    simp [hq]
  rw [h1]
  simp [hf]

theorem updateSubTaskIn_comp (w : Worker) (n : String) (f g : SubTask → SubTask)
    (hf : ∀ t, t.cfg.Name = n → (f t).cfg.Name = n) :
    updateSubTaskIn (updateSubTaskIn w n f) n g = updateSubTaskIn w n (fun t => g (f t)) := by
  unfold updateSubTaskIn
  simp only [List.map_map]
  have hfun : ((fun t => if t.cfg.Name = n then g t else t) ∘
      (fun t => if t.cfg.Name = n then f t else t)) =
      (fun t => if t.cfg.Name = n then g (f t) else t) := by
    funext t
    by_cases h : t.cfg.Name = n
    · simp [Function.comp, h, hf t h]
    · simp [Function.comp, h]
  rw [hfun]

theorem recordSubTask_closed (w : Worker) (st : SubTask) :
    (recordSubTask w st).closed = w.closed := rfl

theorem recordSubTask_relayPurgerPresent (w : Worker) (st : SubTask) :
    (recordSubTask w st).relayPurgerPresent = w.relayPurgerPresent := rfl

theorem recordSubTask_relayPurging (w : Worker) (st : SubTask) :
    (recordSubTask w st).relayPurging = w.relayPurging := rfl

theorem updateSubTaskIn_relayPurgerPresent (w : Worker) (n : String) (f : SubTask → SubTask) :
    (updateSubTaskIn w n f).relayPurgerPresent = w.relayPurgerPresent := rfl

theorem updateSubTaskIn_relayPurging (w : Worker) (n : String) (f : SubTask → SubTask) :
    (updateSubTaskIn w n f).relayPurging = w.relayPurging := rfl

theorem decryptPassword_ok {cfg cfg2 : SubTaskConfig}
    (h : cfg.decryptPassword = .ok cfg2) : cfg2 = cfg ∧ cfg.decryptOk = true := by
  unfold SubTaskConfig.decryptPassword at h
  by_cases hd : cfg.decryptOk = true
  · rw [if_pos hd] at h
    injection h with h
    exact ⟨h.symm, hd⟩
  · simp only [Bool.not_eq_true] at hd
    rw [hd] at h
    simp at h

theorem copyConfigFromSource_preserves {cfg : SubTaskConfig} {s : SourceConfig}
    {cfg1 : SubTaskConfig} (h : copyConfigFromSource cfg s = .ok cfg1) :
    cfg1.Name = cfg.Name ∧ cfg1.decryptOk = cfg.decryptOk := by
  simp only [copyConfigFromSource] at h
  split at h
  · cases h
  · split at h
    · cases h
    · injection h with h
      subst h
      exact ⟨rfl, rfl⟩

/-! Claim C3: `StartSubTask` and recording. -/

/-- C3 counterexample: with a subtask config whose own filter rules do not
compile, `StartSubTask` returns a per-subtask failure (the projection
error) and records nothing — even though the claim says it never returns a
per-subtask failure and always leaves the record observable in the
holder. -/
theorem startSubTask_projection_error_cex :
    (StartSubTask wClosedEx badCfgEx .running).2 = .error (.filterFail .invalidRule) ∧
    (StartSubTask wClosedEx badCfgEx .running).1.subTasks = [] := by
  decide

/-- C3 (amended): once the config projection `copyConfigFromSource`
succeeds, `StartSubTask` never returns a per-subtask failure: it records
the SubTask in the holder, and when the Worker is closed — or decryption
fails, or the relay purger is purging — it marks that recorded SubTask
failed (Paused with an attached result) and returns success; on the happy
path the recorded SubTask is run toward the expected stage. -/
theorem startSubTask_records (w : Worker) (cfg : SubTaskConfig) (expect : Stage)
    (cfg1 : SubTaskConfig) (h : copyConfigFromSource cfg w.cfg = .ok cfg1) :
    (StartSubTask w cfg expect).2 = .ok () ∧
    ∃ st, findSubTask (StartSubTask w cfg expect).1 cfg.Name = some st ∧
      (w.closed = true → st.stage = .paused ∧
        st.result = some { isCanceled := false, err := .alreadyClosed }) ∧
      (w.closed = false → cfg1.decryptOk = false → st.stage = .paused ∧
        st.result = some { isCanceled := false, err := .decryptFailed }) ∧
      (w.closed = false → cfg1.decryptOk = true →
        (w.relayPurgerPresent && w.relayPurging) = true → st.stage = .paused ∧
        st.result = some { isCanceled := false, err := .relayPurging cfg.Name }) ∧
      (w.closed = false → cfg1.decryptOk = true →
        (w.relayPurgerPresent && w.relayPurging) = false →
        st.stage = (if expect = .running ∨ expect = .paused then expect else .new)) := by
  obtain ⟨hname, _⟩ := copyConfigFromSource_preserves h
  rw [← hname]
  by_cases hcl : w.closed = true
  · have hres : StartSubTask w cfg expect =
        (updateSubTaskIn (recordSubTask w (NewSubTask cfg1)) cfg1.Name
          (fun st => st.fail .alreadyClosed), .ok ()) := by
      unfold StartSubTask
      rw [h]
      dsimp only
      rw [recordSubTask_closed, hcl]
      simp
    rw [hres]
    refine ⟨rfl, (NewSubTask cfg1).fail .alreadyClosed, ?_, ?_, ?_, ?_, ?_⟩
    · exact findSubTask_record_update w (NewSubTask cfg1) (fun st => st.fail .alreadyClosed) rfl
    · intro _; exact ⟨rfl, rfl⟩
    · intro hc _; rw [hc] at hcl; exact absurd hcl (by decide)
    · intro hc _ _; rw [hc] at hcl; exact absurd hcl (by decide)
    · intro hc _ _; rw [hc] at hcl; exact absurd hcl (by decide)
  · simp only [Bool.not_eq_true] at hcl
    by_cases hdo : cfg1.decryptOk = true
    · have hdp : cfg1.decryptPassword = .ok cfg1 := by
        unfold SubTaskConfig.decryptPassword
        rw [if_pos hdo]
      by_cases hp : (w.relayPurgerPresent && w.relayPurging) = true
      · have hres : StartSubTask w cfg expect =
            (updateSubTaskIn (updateSubTaskIn (recordSubTask w (NewSubTask cfg1)) cfg1.Name
                (fun t => { t with cfg := cfg1 })) cfg1.Name
              (fun t => t.fail (.relayPurging cfg1.Name)), .ok ()) := by
          unfold StartSubTask
          rw [h]
          dsimp only
          rw [recordSubTask_closed, hcl]
          simp only [Bool.false_eq_true, if_false]
          rw [hdp]
          dsimp only
          rw [updateSubTaskIn_relayPurgerPresent, recordSubTask_relayPurgerPresent,
            updateSubTaskIn_relayPurging, recordSubTask_relayPurging, hp]
          simp
        rw [hres,
          updateSubTaskIn_comp (recordSubTask w (NewSubTask cfg1)) cfg1.Name
            (fun t => { t with cfg := cfg1 })
            (fun t => t.fail (.relayPurging cfg1.Name)) (fun t _ => rfl)]
        refine ⟨rfl, ({ NewSubTask cfg1 with cfg := cfg1 }).fail (.relayPurging cfg1.Name),
          ?_, ?_, ?_, ?_, ?_⟩
        · exact findSubTask_record_update w (NewSubTask cfg1)
            (fun t => ({ t with cfg := cfg1 }).fail (.relayPurging cfg1.Name)) rfl
        · intro hc; rw [hc] at hcl; exact absurd hcl (by decide)
        · intro _ hdf; rw [hdf] at hdo; exact absurd hdo (by decide)
        · intro _ _ _; exact ⟨rfl, rfl⟩
        · intro _ _ hnp; rw [hnp] at hp; exact absurd hp (by decide)
      · simp only [Bool.not_eq_true] at hp
        have hres : StartSubTask w cfg expect =
            (updateSubTaskIn (updateSubTaskIn (recordSubTask w (NewSubTask cfg1)) cfg1.Name
                (fun t => { t with cfg := cfg1 })) cfg1.Name
              (fun t => t.runWith expect), .ok ()) := by
          unfold StartSubTask
          rw [h]
          dsimp only
          rw [recordSubTask_closed, hcl]
          simp only [Bool.false_eq_true, if_false]
          rw [hdp]
          dsimp only
          rw [updateSubTaskIn_relayPurgerPresent, recordSubTask_relayPurgerPresent,
            updateSubTaskIn_relayPurging, recordSubTask_relayPurging, hp]
          simp
        rw [hres,
          updateSubTaskIn_comp (recordSubTask w (NewSubTask cfg1)) cfg1.Name
            (fun t => { t with cfg := cfg1 })
            (fun t => t.runWith expect) (fun t _ => rfl)]
        refine ⟨rfl, ({ NewSubTask cfg1 with cfg := cfg1 }).runWith expect,
          ?_, ?_, ?_, ?_, ?_⟩
        · refine findSubTask_record_update w (NewSubTask cfg1)
            (fun t => ({ t with cfg := cfg1 }).runWith expect) ?_
          by_cases hrp : expect = Stage.running ∨ expect = Stage.paused <;>
            simp [SubTask.runWith, NewSubTask, hrp]
        · intro hc; rw [hc] at hcl; exact absurd hcl (by decide)
        · intro _ hdf; rw [hdf] at hdo; exact absurd hdo (by decide)
        · intro _ _ hpp; rw [hpp] at hp; exact absurd hp (by decide)
        · intro _ _ _
          by_cases hrp : expect = Stage.running ∨ expect = Stage.paused <;>
            simp [SubTask.runWith, NewSubTask, hrp]
    · simp only [Bool.not_eq_true] at hdo
      have hdp : cfg1.decryptPassword = .error .decryptFailed := by
        unfold SubTaskConfig.decryptPassword
        rw [hdo]
        rfl
      have hres : StartSubTask w cfg expect =
          (updateSubTaskIn (recordSubTask w (NewSubTask cfg1)) cfg1.Name
            (fun st => st.fail .decryptFailed), .ok ()) := by
        unfold StartSubTask
        rw [h]
        dsimp only
        rw [recordSubTask_closed, hcl]
        simp only [Bool.false_eq_true, if_false]
        rw [hdp]
      rw [hres]
      refine ⟨rfl, (NewSubTask cfg1).fail .decryptFailed, ?_, ?_, ?_, ?_, ?_⟩
      · exact findSubTask_record_update w (NewSubTask cfg1) (fun st => st.fail .decryptFailed) rfl
      · intro hc; rw [hc] at hcl; exact absurd hcl (by decide)
      · intro _ _; exact ⟨rfl, rfl⟩
      · intro _ hdt; rw [hdt] at hdo; exact absurd hdo (by decide)
      · intro _ hdt; rw [hdt] at hdo; exact absurd hdo (by decide)

/-- C3 witness: on an already closed Worker the subtask is still recorded,
Paused with the already-closed result attached, and the call succeeds. -/
theorem startSubTask_records_witness :
    (StartSubTask wClosedEx c0Ex .running).2 = .ok () ∧
    ∃ st, findSubTask (StartSubTask wClosedEx c0Ex .running).1 c0Ex.Name = some st ∧
      (wClosedEx.closed = true → st.stage = .paused ∧
        st.result = some { isCanceled := false, err := .alreadyClosed }) ∧
      (wClosedEx.closed = false → c0Ex.decryptOk = false → st.stage = .paused ∧
        st.result = some { isCanceled := false, err := .decryptFailed }) ∧
      (wClosedEx.closed = false → c0Ex.decryptOk = true →
        (wClosedEx.relayPurgerPresent && wClosedEx.relayPurging) = true → st.stage = .paused ∧
        st.result = some { isCanceled := false, err := .relayPurging c0Ex.Name }) ∧
      (wClosedEx.closed = false → c0Ex.decryptOk = true →
        (wClosedEx.relayPurgerPresent && wClosedEx.relayPurging) = false →
        st.stage = (if Stage.running = .running ∨ Stage.running = .paused
          then Stage.running else .new)) :=
  startSubTask_records wClosedEx c0Ex .running c0Ex rfl

/-! Claim C1: dispatch of `operateSubTaskStage`. -/

/-- C1 counterexample: for the record `s0Ex` (expect Running, deletion
tombstone set) on an open Worker without the task, the claim's translation
rule says the record is not a create (the tombstone blocks it) and the
action is Resume — which cannot create anything — yet the source's
`operateSubTaskStage` takes the create branch and records a new subtask. -/
theorem operateSubTaskStage_deleted_create_cex :
    s0Ex.isDeleted = true ∧
    claimedSubTaskStageAction false s0Ex = .resume ∧
    findSubTask w0Ex s0Ex.task = none ∧
    findSubTask (operateSubTaskStage w0Ex s0Ex c0Ex).1 "t" ≠ none := by
  decide

/-- C1 (amended): `operateSubTaskStage` creates the subtask through
`StartSubTask` whenever it is absent and the expected stage is Running or
Paused — regardless of the deletion tombstone; when the subtask exists it
Resumes on Running and Pauses on Paused; otherwise it Stops on a deletion
tombstone (leaving no record of the task in the holder on an open Worker)
and falls through to the zero-valued `TaskOp` on any other record. -/
theorem operateSubTaskStage_dispatch (w : Worker) (s : StageRecord) (cfg : SubTaskConfig) :
    ((s.expect = .running ∨ s.expect = .paused) → findSubTask w s.task = none →
      operateSubTaskStage w s cfg =
        ((StartSubTask w cfg s.expect).1, opErrTypeBeforeOp,
          (StartSubTask w cfg s.expect).2)) ∧
    (s.expect = .running → (∃ st, findSubTask w s.task = some st) →
      operateSubTaskStage w s cfg =
        ((OperateSubTask w s.task .resume).1, TaskOp.str .resume,
          (OperateSubTask w s.task .resume).2)) ∧
    (s.expect = .paused → (∃ st, findSubTask w s.task = some st) →
      operateSubTaskStage w s cfg =
        ((OperateSubTask w s.task .pause).1, TaskOp.str .pause,
          (OperateSubTask w s.task .pause).2)) ∧
    (s.expect ≠ .running → s.expect ≠ .paused → s.isDeleted = true →
      operateSubTaskStage w s cfg =
        ((OperateSubTask w s.task .stop).1, TaskOp.str .stop,
          (OperateSubTask w s.task .stop).2) ∧
      (w.closed = false → findSubTask (operateSubTaskStage w s cfg).1 s.task = none)) ∧
    (s.expect ≠ .running → s.expect ≠ .paused → s.isDeleted = false →
      operateSubTaskStage w s cfg =
        ((OperateSubTask w s.task .invalidOp).1, TaskOp.str .invalidOp,
          (OperateSubTask w s.task .invalidOp).2)) := by
  refine ⟨?_, ?_, ?_, ?_, ?_⟩
  · rintro (he | he) hf <;> simp [operateSubTaskStage, he, hf]
  · rintro he ⟨st, hst⟩
    simp [operateSubTaskStage, he, hst]
  · rintro he ⟨st, hst⟩
    simp [operateSubTaskStage, he, hst]
  · intro h2 h3 hd
    refine ⟨by simp [operateSubTaskStage, h2, h3, hd], ?_⟩
    intro hopen
    have heq : (operateSubTaskStage w s cfg).1 = (OperateSubTask w s.task .stop).1 := by
      simp [operateSubTaskStage, h2, h3, hd]
    rw [heq]
    cases hff : findSubTask w s.task with
    | none => simp [OperateSubTask, hopen, hff]
    | some st => simp [OperateSubTask, hopen, hff, findSubTask_remove]
  · intro h2 h3 hd
    simp [operateSubTaskStage, h2, h3, hd]

/-- C1 witness: a Running-expect record for an absent task is handled by
handing the fetched config to `StartSubTask`. -/
theorem operateSubTaskStage_dispatch_witness :
    operateSubTaskStage w0Ex sRunEx c0Ex =
      ((StartSubTask w0Ex c0Ex .running).1, opErrTypeBeforeOp,
        (StartSubTask w0Ex c0Ex .running).2) :=
  (operateSubTaskStage_dispatch w0Ex sRunEx c0Ex).1 (Or.inl rfl) rfl

/-! Claim C2: the config fetch of `operateSubTaskStageWithoutConfig`. -/

/-- C2 counterexample: for the record `s1Ex` (expect Paused, subtask
absent) the claim says the config is fetched from the store and, the store
being empty, a config-missing error is signalled with no operation
applied; the source fetches only for expect Running, so here it proceeds
with the zero-valued config, reports success and creates a subtask. -/
theorem operateSubTaskStageWithoutConfig_paused_cex :
    s1Ex.expect = .paused ∧
    findSubTask w0Ex s1Ex.task = none ∧
    emptyStore s1Ex.task s1Ex.revision = none ∧
    (operateSubTaskStageWithoutConfig w0Ex emptyStore s1Ex).2.2 = .ok () ∧
    (operateSubTaskStageWithoutConfig w0Ex emptyStore s1Ex).1.subTasks ≠ [] := by
  decide

/-- C2 (amended): on the watch event path, only for a record with expected
stage Running and an absent subtask is the config fetched from the store
at the record's revision; a missing config yields the config-missing error
with the Worker unchanged, and a present config is handed on to
`operateSubTaskStage`. -/
theorem operateSubTaskStageWithoutConfig_running_fetch (w : Worker)
    (store : String → Nat → Option SubTaskConfig) (s : StageRecord)
    (he : s.expect = .running) (hf : findSubTask w s.task = none) :
    (store s.task s.revision = none →
      operateSubTaskStageWithoutConfig w store s =
        (w, opErrTypeBeforeOp, .error (.configMissing s.task))) ∧
    (∀ c, store s.task s.revision = some c →
      operateSubTaskStageWithoutConfig w store s = operateSubTaskStage w s c) := by
  constructor
  · intro hs
    simp [operateSubTaskStageWithoutConfig, he, hf, hs]
  · intro c hs
    simp [operateSubTaskStageWithoutConfig, he, hf, hs]

/-- C2 witness: a Running-expect record for an absent task on an empty
store yields the config-missing error and leaves the Worker unchanged. -/
theorem operateSubTaskStageWithoutConfig_running_fetch_witness :
    operateSubTaskStageWithoutConfig w0Ex emptyStore sRunEx =
      (w0Ex, opErrTypeBeforeOp, .error (.configMissing "t")) :=
  (operateSubTaskStageWithoutConfig_running_fetch w0Ex emptyStore sRunEx rfl rfl).1 rfl

/-! Claim C4: characterization of `ForbidPurge`. -/

/-- C4: `ForbidPurge` returns `(false, "")` on a closed Worker; on an open
Worker it returns true exactly when some subtask is in stage New or
Paused, with the reason rendered for such a subtask, and `(false, "")`
when there is none. -/
theorem forbidPurge_char (w : Worker) :
    (w.closed = true → ForbidPurge w = (false, "")) ∧
    (w.closed = false →
      ((ForbidPurge w).1 = true ↔
        ∃ st ∈ w.subTasks, st.stage = .new ∨ st.stage = .paused) ∧
      ((ForbidPurge w).1 = true →
        ∃ st ∈ w.subTasks, (st.stage = .new ∨ st.stage = .paused) ∧
          (ForbidPurge w).2 =
            "sub task " ++ st.cfg.Name ++ " current stage is " ++ stageString st.stage) ∧
      ((ForbidPurge w).1 = false → ForbidPurge w = (false, ""))) := by
  constructor
  · intro h; simp [ForbidPurge, h]
  · intro h
    cases hfind : w.subTasks.find? (fun st => st.stage = .new ∨ st.stage = .paused) with
    | none =>
      have hnone := List.find?_eq_none.mp hfind
      have hfp : ForbidPurge w = (false, "") := by
        unfold ForbidPurge
        rw [h, hfind]
        rfl
      refine ⟨?_, ?_, ?_⟩
      · rw [hfp]
        constructor
        · intro hc; cases hc
        · rintro ⟨st, hst, hp⟩
          have := hnone st hst
          simp at this
          rcases hp with hp | hp <;> simp [hp] at this
      · intro hc; rw [hfp] at hc; cases hc
      · intro _; exact hfp
    | some st =>
      have hmem := List.mem_of_find?_eq_some hfind
      have hp := List.find?_some hfind
      simp at hp
      have hfp : ForbidPurge w =
          (true, "sub task " ++ st.cfg.Name ++ " current stage is " ++ stageString st.stage) := by
        unfold ForbidPurge
        rw [h, hfind]
        rfl
      refine ⟨?_, ?_, ?_⟩
      · rw [hfp]
        exact ⟨fun _ => ⟨st, hmem, hp⟩, fun _ => rfl⟩
      · intro _
        exact ⟨st, hmem, hp, by rw [hfp]⟩
      · intro hfalse; rw [hfp] at hfalse; cases hfalse

/-- C4 witness: on an open Worker with the paused subtask `t` purging is
forbidden, with the documented reason; on a closed Worker it is not. -/
theorem forbidPurge_char_witness :
    (ForbidPurge w1Ex).1 = true ∧
    (∃ st ∈ w1Ex.subTasks, (st.stage = .new ∨ st.stage = .paused) ∧
      (ForbidPurge w1Ex).2 =
        "sub task " ++ st.cfg.Name ++ " current stage is " ++ stageString st.stage) ∧
    ForbidPurge wClosedEx = (false, "") := by
  refine ⟨?_, ?_, ?_⟩
  · exact ((forbidPurge_char w1Ex).2 rfl).1.mpr ⟨stPausedEx, by decide, by decide⟩
  · exact ((forbidPurge_char w1Ex).2 rfl).2.1 (by decide)
  · exact (forbidPurge_char wClosedEx).1 rfl

/-! Claim C5: `Close` is idempotent, total and closes everything. -/

/-- C5: `Close` on an already closed Worker is the identity; `Close` is a
total function (never fails); it leaves the Worker closed, and on an open
Worker it cancels the root context, drives every subtask to Stopped and
closes the relay holder, purger and checker when present or enabled. -/
theorem close_spec (w : Worker) :
    Worker.Close (Worker.Close w) = Worker.Close w ∧
    (Worker.Close w).closed = true ∧
    (w.closed = true → Worker.Close w = w) ∧
    (w.closed = false →
      (Worker.Close w).ctxCanceled = true ∧
      (∀ st ∈ (Worker.Close w).subTasks, st.stage = .stopped) ∧
      (w.relayHolderPresent = true → (Worker.Close w).relayClosed = true) ∧
      (w.relayPurgerPresent = true → (Worker.Close w).purgerClosed = true) ∧
      (w.cfg.checkEnable = true → (Worker.Close w).checkerClosed = true)) := by
  by_cases h : w.closed = true
  · simp [Worker.Close, h]
  · simp only [Bool.not_eq_true] at h
    refine ⟨?_, ?_, ?_, ?_⟩
    · simp [Worker.Close, h]
    · simp [Worker.Close, h]
    · intro hc; rw [hc] at h; cases h
    · intro _
      refine ⟨by simp [Worker.Close, h], ?_, ?_, ?_, ?_⟩
      · intro st hst
        simp only [Worker.Close, h, Bool.false_eq_true, if_false, List.mem_map] at hst
        obtain ⟨t, _, rfl⟩ := hst
        rfl
      · intro hr; simp [Worker.Close, h, hr]
      · intro hr; simp [Worker.Close, h, hr]
      · intro hr; simp [Worker.Close, h, hr]

/-- C5 witness: closing an open Worker with one paused subtask closes it,
is idempotent, and closing an already closed Worker changes nothing. -/
theorem close_spec_witness :
    (Worker.Close w1Ex).closed = true ∧
    Worker.Close (Worker.Close w1Ex) = Worker.Close w1Ex ∧
    Worker.Close wClosedEx = wClosedEx :=
  ⟨(close_spec w1Ex).2.1, (close_spec w1Ex).1, (close_spec wClosedEx).2.2.1 rfl⟩

/-! Claim C6: closed/not-found guards of the four mutating operations. -/

/-- C6: `UpdateSubTask`, `OperateSubTask`, `OperateSchema` and
`HandleError` return the already-closed error and change nothing on a
closed Worker, and the subtask-not-found error and change nothing when the
named task is absent. -/
theorem mutating_ops_guards (w : Worker) (cfg : SubTaskConfig)
    (name task1 task2 : String) (op : TaskOp) :
    (w.closed = true →
      UpdateSubTask w cfg = (w, .error .alreadyClosed) ∧
      OperateSubTask w name op = (w, .error .alreadyClosed) ∧
      OperateSchema w task1 = (w, .error .alreadyClosed) ∧
      HandleError w task2 = (w, .error .alreadyClosed)) ∧
    (w.closed = false →
      (findSubTask w cfg.Name = none →
        UpdateSubTask w cfg = (w, .error (.subTaskNotFound cfg.Name))) ∧
      (findSubTask w name = none →
        OperateSubTask w name op = (w, .error (.subTaskNotFound name))) ∧
      (findSubTask w task1 = none →
        OperateSchema w task1 = (w, .error (.subTaskNotFound task1))) ∧
      (findSubTask w task2 = none →
        HandleError w task2 = (w, .error (.subTaskNotFound task2)))) := by
  constructor
  · intro h
    refine ⟨?_, ?_, ?_, ?_⟩ <;>
      simp [UpdateSubTask, OperateSubTask, OperateSchema, HandleError, h]
  · intro h
    refine ⟨?_, ?_, ?_, ?_⟩ <;> intro hf <;>
      simp [UpdateSubTask, OperateSubTask, OperateSchema, HandleError, h, hf]

/-- C6 witness: the guards evaluated on a closed Worker and on an open
Worker with an empty holder. -/
theorem mutating_ops_guards_witness :
    UpdateSubTask wClosedEx c0Ex = (wClosedEx, .error .alreadyClosed) ∧
    OperateSubTask wClosedEx "t" .pause = (wClosedEx, .error .alreadyClosed) ∧
    OperateSchema wClosedEx "t" = (wClosedEx, .error .alreadyClosed) ∧
    HandleError wClosedEx "t" = (wClosedEx, .error .alreadyClosed) ∧
    UpdateSubTask w0Ex c0Ex = (w0Ex, .error (.subTaskNotFound "t")) ∧
    OperateSubTask w0Ex "t" .pause = (w0Ex, .error (.subTaskNotFound "t")) ∧
    OperateSchema w0Ex "t" = (w0Ex, .error (.subTaskNotFound "t")) ∧
    HandleError w0Ex "t" = (w0Ex, .error (.subTaskNotFound "t")) := by
  have hclosed := (mutating_ops_guards wClosedEx c0Ex "t" "t" "t" .pause).1 rfl
  have hopen := (mutating_ops_guards w0Ex c0Ex "t" "t" "t" .pause).2 rfl
  exact ⟨hclosed.1, hclosed.2.1, hclosed.2.2.1, hclosed.2.2.2,
    hopen.1 rfl, hopen.2.1 rfl, hopen.2.2.1 rfl, hopen.2.2.2 rfl⟩

/-! Claim C10: the fall-through branch of `operateSubTaskStage`. -/

/-- C10: for a record that is not deleted and whose expected stage is
neither Running nor Paused, `operateSubTaskStage` falls through both
switch cases and invokes `OperateSubTask` with the zero-valued `TaskOp`,
which on an open Worker with the task present returns the
invalid-operation error and leaves the Worker (hence the subtask's stage)
unchanged. -/
theorem fallthrough_invalid_op (w : Worker) (s : StageRecord) (cfg : SubTaskConfig)
    (st : SubTask) (h1 : s.isDeleted = false) (h2 : s.expect ≠ .running)
    (h3 : s.expect ≠ .paused) (h4 : w.closed = false)
    (h5 : findSubTask w s.task = some st) :
    operateSubTaskStage w s cfg =
      (w, TaskOp.invalidOp.str, .error (.invalidOperate .invalidOp s.task)) := by
  simp [operateSubTaskStage, h1, h2, h3, OperateSubTask, h4, h5]

/-- C10 witness: a Stopped-expect record on an open Worker holding task `t`
in Running yields the invalid-operate error and no state change. -/
theorem fallthrough_invalid_op_witness :
    operateSubTaskStage wRex s2Ex c0Ex =
      (wRex, TaskOp.invalidOp.str, .error (.invalidOperate .invalidOp "t")) :=
  fallthrough_invalid_op wRex s2Ex c0Ex stRunningEx rfl (by decide) (by decide) rfl
    (by decide)

/-! Claim C7: `EnableRelay` and the UUID suffix. -/

theorem locLt_trans_facts (a b c : Location) :
    (locLt a b → locLt b c → locLt a c) ∧ (¬locLt a b → ¬locLt b c → ¬locLt a c) := by
  unfold locLt
  omega

theorem foldlMin_spec (xs : List Location) : ∀ acc : Location,
    ((xs.foldl (fun a y => if locLt y a then y else a) acc) = acc ∨
      (xs.foldl (fun a y => if locLt y a then y else a) acc) ∈ xs) ∧
    (∀ y, (y = acc ∨ y ∈ xs) →
      ¬locLt y (xs.foldl (fun a y => if locLt y a then y else a) acc)) := by
  induction xs with
  | nil =>
    intro acc
    refine ⟨Or.inl rfl, ?_⟩
    rintro y (rfl | hy)
    · simp only [List.foldl_nil]
      unfold locLt
      omega
    · cases hy
  | cons x xs ih =>
    intro acc
    simp only [List.foldl_cons]
    by_cases hx : locLt x acc
    · rw [if_pos hx]
      obtain ⟨hmem, hlb⟩ := ih x
      constructor
      · rcases hmem with hm | hm
        · exact Or.inr (by rw [hm]; exact List.mem_cons_self x xs)
        · exact Or.inr (List.mem_cons_of_mem x hm)
      · rintro y (rfl | hy)
        · intro hacc
          exact hlb x (Or.inl rfl) ((locLt_trans_facts x y _).1 hx hacc)
        · rcases List.mem_cons.mp hy with rfl | hy2
          · exact hlb y (Or.inl rfl)
          · exact hlb y (Or.inr hy2)
    · rw [if_neg hx]
      obtain ⟨hmem, hlb⟩ := ih acc
      constructor
      · rcases hmem with hm | hm
        · exact Or.inl hm
        · exact Or.inr (List.mem_cons_of_mem x hm)
      · rintro y (rfl | hy)
        · exact hlb y (Or.inl rfl)
        · rcases List.mem_cons.mp hy with rfl | hy2
          · exact (locLt_trans_facts y acc _).2 hx (hlb acc (Or.inl rfl))
          · exact hlb y (Or.inr hy2)

/-- C7: after the config-adjusting steps of `EnableRelay`, a non-empty
checkpoint set yields a minimum location whose file suffix becomes
`UUIDSuffix` and whose adjusted file name and GTID set become the relay
start fields; an empty set yields the sentinel `MinUUIDSuffix`. -/
theorem enableRelay_uuidSuffix (cfg : SourceConfig) (cps : List Location) :
    (cps ≠ [] → ∃ m, m ∈ cps ∧ (∀ l ∈ cps, ¬locLt l m) ∧
      (enableRelayAdjustConfig cfg cps).UUIDSuffix = extractSuffix m.name ∧
      (enableRelayAdjustConfig cfg cps).RelayBinLogName = adjustPositionName m.name ∧
      (enableRelayAdjustConfig cfg cps).RelayBinlogGTID = m.gtid) ∧
    (cps = [] → (enableRelayAdjustConfig cfg cps).UUIDSuffix = MinUUIDSuffix) := by
  constructor
  · intro hne
    cases cps with
    | nil => exact absurd rfl hne
    | cons x xs =>
      obtain ⟨hmem, hlb⟩ := foldlMin_spec xs x
      refine ⟨xs.foldl (fun a y => if locLt y a then y else a) x, ?_, ?_, rfl, rfl, rfl⟩
      · rcases hmem with hm | hm
        · rw [hm]; exact List.mem_cons_self x xs
        · exact List.mem_cons_of_mem x hm
      · intro l hl
        rcases List.mem_cons.mp hl with rfl | hl2
        · exact hlb l (Or.inl rfl)
        · exact hlb l (Or.inr hl2)
  · intro he
    subst he
    rfl

/-- C7 witness: of the three checkpoints the minimum is
`mysql-bin|000003.000050` and the UUID suffix becomes 3; the empty set
yields the sentinel. -/
theorem enableRelay_uuidSuffix_witness :
    (∃ m, m ∈ [l1Ex, l2Ex, l3Ex] ∧ (∀ l ∈ [l1Ex, l2Ex, l3Ex], ¬locLt l m) ∧
      (enableRelayAdjustConfig srcCfg0Ex [l1Ex, l2Ex, l3Ex]).UUIDSuffix = extractSuffix m.name ∧
      (enableRelayAdjustConfig srcCfg0Ex [l1Ex, l2Ex, l3Ex]).RelayBinLogName
        = adjustPositionName m.name ∧
      (enableRelayAdjustConfig srcCfg0Ex [l1Ex, l2Ex, l3Ex]).RelayBinlogGTID = m.gtid) ∧
    (enableRelayAdjustConfig srcCfg0Ex []).UUIDSuffix = MinUUIDSuffix :=
  ⟨(enableRelay_uuidSuffix srcCfg0Ex [l1Ex, l2Ex, l3Ex]).1 (by decide),
    (enableRelay_uuidSuffix srcCfg0Ex []).2 rfl⟩

/-! Claim C8: idempotence of `copyConfigFromSource`. -/

theorem addRule_ok {cs : Bool} {K : List String} {r : FilterRule} {K2 : List String}
    (h : addRule cs K r = .ok K2) :
    K2 = K ++ [normKey cs r.key] ∧ normKey cs r.key ∉ K ∧ r.valid = true := by
  unfold addRule at h
  by_cases hmem : normKey cs r.key ∈ K
  · rw [if_pos hmem] at h; cases h
  · rw [if_neg hmem] at h
    by_cases hv : r.valid = true
    · rw [if_pos hv] at h
      injection h with h
      exact ⟨h.symm, hmem, hv⟩
    · simp only [Bool.not_eq_true] at hv
      rw [hv] at h
      simp at h

theorem addRule_alreadyExists {cs : Bool} {K : List String} {r : FilterRule}
    (h : normKey cs r.key ∈ K) : addRule cs K r = .error .alreadyExists := by
  unfold addRule
  rw [if_pos h]

theorem addRule_already_inv {cs : Bool} {K : List String} {r : FilterRule}
    (h : addRule cs K r = .error .alreadyExists) : normKey cs r.key ∈ K := by
  by_contra hmm
  unfold addRule at h
  rw [if_neg hmm] at h
  by_cases hv : r.valid = true
  · rw [if_pos hv] at h; cases h
  · simp only [Bool.not_eq_true] at hv
    rw [hv] at h
    simp at h

theorem normKeys_append (cs : Bool) (xs ys : List FilterRule) :
    normKeys cs (xs ++ ys) = normKeys cs xs ++ normKeys cs ys := by
  simp [normKeys]

theorem buildFilter_ok_eq {cs : Bool} : ∀ {rules : List FilterRule} {K K2 : List String},
    buildFilter cs K rules = .ok K2 → K2 = K ++ normKeys cs rules := by
  intro rules
  induction rules with
  | nil =>
    intro K K2 h
    injection h with h
    simp [normKeys, h.symm]
  | cons r rest ih =>
    intro K K2 h
    unfold buildFilter at h
    split at h
    · cases h
    · rename_i Kmid ha
      obtain ⟨hk, _, _⟩ := addRule_ok ha
      have h2 := ih h
      subst hk
      rw [h2]
      simp [normKeys]

theorem buildFilter_cons (cs : Bool) (K : List String) (r : FilterRule)
    (rest : List FilterRule) :
    buildFilter cs K (r :: rest) =
      (match addRule cs K r with
        | .error e => Except.error e
        | .ok K2 => buildFilter cs K2 rest) := rfl

theorem buildFilter_append {cs : Bool} : ∀ (xs ys : List FilterRule) (K : List String),
    buildFilter cs K (xs ++ ys) =
      (match buildFilter cs K xs with
        | .error e => .error e
        | .ok K2 => buildFilter cs K2 ys) := by
  intro xs
  induction xs with
  | nil => intro ys K; rfl
  | cons r rest ih =>
    intro ys K
    simp only [List.cons_append]
    rw [buildFilter_cons, buildFilter_cons]
    cases addRule cs K r with
    | error e => rfl
    | ok K2 => exact ih ys K2

theorem copyFilters_idem {cs : Bool} : ∀ (fs rules rules2 : List FilterRule),
    newBinlogEvent cs rules = .ok (normKeys cs rules) →
    copyFilters cs (normKeys cs rules) rules fs = .ok rules2 →
    newBinlogEvent cs rules2 = .ok (normKeys cs rules2) ∧
    copyFilters cs (normKeys cs rules2) rules2 fs = .ok rules2 ∧
    ∃ tail, rules2 = rules ++ tail := by
  intro fs
  induction fs with
  | nil =>
    intro rules rules2 hnb hcf
    injection hcf with hcf
    subst hcf
    exact ⟨hnb, rfl, [], by simp⟩
  | cons f rest ih =>
    intro rules rules2 hnb hcf
    unfold copyFilters at hcf
    cases ha : addRule cs (normKeys cs rules) f with
    | error e =>
      cases e with
      | alreadyExists =>
        rw [ha] at hcf
        obtain ⟨h1, h2, tail, ht⟩ := ih rules rules2 hnb hcf
        refine ⟨h1, ?_, tail, ht⟩
        unfold copyFilters
        have hmem : normKey cs f.key ∈ normKeys cs rules2 := by
          have hm := addRule_already_inv ha
          rw [ht, normKeys_append]
          exact List.mem_append_left _ hm
        rw [addRule_alreadyExists hmem]
        exact h2
      | invalidRule =>
        rw [ha] at hcf
        simp at hcf
    | ok K2 =>
      rw [ha] at hcf
      obtain ⟨hk2, hnmem, hval⟩ := addRule_ok ha
      have hk2b : K2 = normKeys cs (rules ++ [f]) := by
        rw [hk2, normKeys_append]
        rfl
      have hnb2 : newBinlogEvent cs (rules ++ [f]) = .ok (normKeys cs (rules ++ [f])) := by
        unfold newBinlogEvent
        rw [buildFilter_append]
        rw [show buildFilter cs ([] : List String) rules
          = Except.ok (normKeys cs rules) from hnb]
        show buildFilter cs (normKeys cs rules) [f] = Except.ok (normKeys cs (rules ++ [f]))
        unfold buildFilter
        rw [ha]
        show buildFilter cs K2 [] = Except.ok (normKeys cs (rules ++ [f]))
        unfold buildFilter
        rw [hk2b]
      rw [hk2b] at hcf
      obtain ⟨h1, h2, tail, ht⟩ := ih (rules ++ [f]) rules2 hnb2 hcf
      refine ⟨h1, ?_, [f] ++ tail, by rw [ht]; simp⟩
      unfold copyFilters
      have hmem : normKey cs f.key ∈ normKeys cs rules2 := by
        rw [ht, normKeys_append, normKeys_append]
        exact List.mem_append_left _ (List.mem_append_right _ (by simp [normKeys]))
      rw [addRule_alreadyExists hmem]
      exact h2

theorem copyConfigFromSource_inv {cfg : SubTaskConfig} {s : SourceConfig}
    {cfg1 : SubTaskConfig} (h : copyConfigFromSource cfg s = .ok cfg1) :
    ∃ rules2,
      newBinlogEvent (cfg.CaseSensitive || s.CaseSensitive) cfg.FilterRules =
        .ok (normKeys (cfg.CaseSensitive || s.CaseSensitive) cfg.FilterRules) ∧
      copyFilters (cfg.CaseSensitive || s.CaseSensitive)
        (normKeys (cfg.CaseSensitive || s.CaseSensitive) cfg.FilterRules)
        cfg.FilterRules s.Filters = .ok rules2 ∧
      cfg1 = { projectSource cfg s with FilterRules := rules2 } := by
  simp only [copyConfigFromSource] at h
  split at h
  · cases h
  · rename_i keys hb
    split at h
    · cases h
    · rename_i rules2 hc
      injection h with h
      have hk : keys = normKeys (cfg.CaseSensitive || s.CaseSensitive) cfg.FilterRules := by
        have hb2 := buildFilter_ok_eq hb
        simpa using hb2
      subst hk
      exact ⟨rules2, hb, hc, h.symm⟩

/-- C8: when one application of `copyConfigFromSource` succeeds, a second
application to its result is a no-op — the same config (including the
merged `FilterRules` and the disjoined `CaseSensitive` flag) comes back. -/
theorem copyConfigFromSource_idem (cfg : SubTaskConfig) (s : SourceConfig)
    (cfg1 : SubTaskConfig) (h : copyConfigFromSource cfg s = .ok cfg1) :
    copyConfigFromSource cfg1 s = .ok cfg1 ∧
    cfg1.CaseSensitive = (cfg.CaseSensitive || s.CaseSensitive) := by
  obtain ⟨rules2, hnb, hcf, hc1⟩ := copyConfigFromSource_inv h
  obtain ⟨hnb2, hcf2, tail, ht⟩ := copyFilters_idem s.Filters cfg.FilterRules rules2 hnb hcf
  subst hc1
  refine ⟨?_, rfl⟩
  rcases cfg with ⟨cn, csrc, cfrom, cflav, cserv, crd, ceg, cur, cag, ccs, cfr, cdo⟩
  rcases s with ⟨ssid, sfrom, sflav, sserv, srd, seg, ser, sag, scs, sfil, sce, srb, srg, sus⟩
  dsimp only at hnb hcf hnb2 hcf2 ht
  simp only [copyConfigFromSource, projectSource]
  simp only [Bool.or_assoc, Bool.or_self]
  rw [hnb2]
  simp only [hcf2]

/-- C8 witness: one concrete projection where the source contributes one
new filter rule and one clashing rule; the second application returns the
result of the first unchanged. -/
theorem copyConfigFromSource_idem_witness :
    copyConfigFromSource cfg1Ex srcCfgFEx = .ok cfg1Ex ∧
    cfg1Ex.CaseSensitive = (taskCfgEx.CaseSensitive || srcCfgFEx.CaseSensitive) :=
  copyConfigFromSource_idem taskCfgEx srcCfgFEx cfg1Ex rfl

end DMWorker
